import Mathlib

/-!
Shallow embedding of the TTS job-processing service
(`app/services/job_processor.py`, `app/services/tts_service.py`,
`app/routers/jobs.py`, `app/models/job.py`).

The embedding models the persistent Job Store as a list of records, the
synthesis engine as an abstract function returning either a byte size or an
error message, and the filesystem as a list of paths.  The worker loop of the
job processor is sequential in the source (the single consumer awaits
`_process_job` to completion before the next `queue.get`), so it is embedded
as structural recursion over the queue contents, emitting an event trace of
`processing`-marks and terminal writes.
-/

namespace App

/-- Job lifecycle states, from `app/models/job.py` (`class JobStatus`). -/
inductive JobStatus where
  | pending
  | processing
  | completed
  | failed
deriving DecidableEq, Repr

/-- One persisted Job Record, from `app/models/job.py` (`class Job`).
Timestamps are modelled as `Nat`; nullable columns as `Option`. -/
structure Job where
  id : String
  text : String
  voice_id : Option String
  status : JobStatus
  created_at : Nat
  completed_at : Option Nat
  audio_path : Option String
  error_message : Option String
  duration_ms : Option Nat
  file_size_bytes : Option Nat
deriving DecidableEq, Repr

/-- Row lookup `session.execute(select(Job).where(Job.id == job_id))` with
`scalar_one_or_none()`: fetch a record by primary key.  Primary keys are unique, so `find?` models it. -/
def getById (s : List Job) (jid : String) : Option Job :=
  s.find? (fun r => r.id == jid)

/-- Committing a mutation of the fetched record: the row with the given
primary key is replaced. -/
def updateById (s : List Job) (jid : String) (r : Job) : List Job :=
  s.map (fun x => if x.id == jid then r else x)

/-- Observable events of the worker, used to state ordering properties:
the `processing`-mark commit and the terminal (completed/failed) commit. -/
inductive Ev where
  | markProcessing (jid : String)
  | markTerminal (jid : String)
deriving DecidableEq, Repr

/-- Models `AUDIO_DIR` of `app/config.py` (a platform-specific directory;
its value is irrelevant to every claim, only that `audio_path` gets set). -/
def AUDIO_DIR : String := "audio"

/-- Output path of `_process_job`: the audio directory joined with the job id
plus a `.wav` suffix. -/
def audioPathFor (jid : String) : String := AUDIO_DIR ++ "/" ++ jid ++ ".wav"

/-- Embeds `JobProcessor._process_job` (`app/services/job_processor.py`, lines 79-135).
`synth text voice_id` models `tts_service.generate_to_file` returning the byte
size, or the message of the exception it raised; `t` models the wall-clock
value written to `completed_at`, `d` the computed `duration_ms`.
Returns the updated store and the trace of committed status writes:
* record missing → drop, no mutation, no events;
* record not `pending` → drop, no mutation, no events;
* otherwise mark `processing` (commit), run synthesis, then commit exactly one
  terminal write (`completed` with `audio_path`/metrics, or `failed` with
  `error_message`/`duration_ms` — the `except Exception` branch). -/
def process_job (synth : String → Option String → Except String Nat)
    (t d : Nat) (jid : String) (s : List Job) : List Job × List Ev :=
  match getById s jid with
  | none => (s, [])
  | some job =>
    if job.status ≠ JobStatus.pending then (s, [])
    else
      let job1 := { job with status := JobStatus.processing }
      let s1 := updateById s jid job1
      match synth job.text job.voice_id with
      | Except.ok size =>
          let job2 := { job1 with
            status := JobStatus.completed
            completed_at := some t
            audio_path := some (audioPathFor jid)
            duration_ms := some d
            file_size_bytes := some size }
          (updateById s1 jid job2, [Ev.markProcessing jid, Ev.markTerminal jid])
      | Except.error msg =>
          let job2 := { job1 with
            status := JobStatus.failed
            completed_at := some t
            error_message := some msg
            duration_ms := some d }
          (updateById s1 jid job2, [Ev.markProcessing jid, Ev.markTerminal jid])

/-- Embeds `JobProcessor._process_loop` (lines 58-77) over the sequence of ids the
queue delivers (FIFO), for a run in which `stop()` is not called: the single
consumer dequeues, skips falsy values (the `if not job_id: continue` check — for a
Python `str` only the empty string is falsy), awaits `_process_job` to completion, and
only then dequeues the next id.  `_process_job` is total here, mirroring the
loop's `except Exception` boundary that never lets an error escape. -/
def process_loop (synth : String → Option String → Except String Nat)
    (t d : Nat) : List String → List Job → List Job × List Ev
  | [], s => (s, [])
  | jid :: rest, s =>
    if jid = "" then process_loop synth t d rest s
    else
      let p := process_job synth t d jid s
      let q := process_loop synth t d rest p.1
      (q.1, p.2 ++ q.2)

/-- The ids marked `processing`, in trace order. -/
def marksOf (tr : List Ev) : List String :=
  tr.filterMap (fun e => match e with
    | Ev.markProcessing j => some j
    | Ev.markTerminal _ => none)

/-- Number of jobs in `processing` status after a trace fragment: marks begun
minus terminal writes, as an integer. -/
def openCount (tr : List Ev) : Int :=
  ((tr.countP (fun e => match e with
      | Ev.markProcessing _ => true
      | Ev.markTerminal _ => false) : Nat) : Int)
  - ((tr.countP (fun e => match e with
      | Ev.markProcessing _ => false
      | Ev.markTerminal _ => true) : Nat) : Int)

/-- A trace is a concatenation of complete per-job blocks: each job's
`processing`-mark is immediately followed by that same job's terminal write
before any other job's events occur. -/
inductive Blocks : List Ev → Prop where
  | nil : Blocks []
  | cons (j : String) (tr : List Ev) (h : Blocks tr) :
      Blocks (Ev.markProcessing j :: Ev.markTerminal j :: tr)

/-- The Job Record invariant of spec §3: `resultRef` (`audio_path`) only on
`completed`, `errorDetail` (`error_message`) only on `failed`, `completed_at`
set iff terminal, `duration_ms` on both terminal outcomes, `file_size_bytes`
only on success, and no terminal field set while `pending`/`processing`. -/
def terminalInv (j : Job) : Prop :=
  (j.status = JobStatus.completed →
    j.audio_path.isSome = true ∧ j.error_message = none ∧
    j.completed_at.isSome = true ∧ j.duration_ms.isSome = true ∧
    j.file_size_bytes.isSome = true) ∧
  (j.status = JobStatus.failed →
    j.error_message.isSome = true ∧ j.audio_path = none ∧
    j.completed_at.isSome = true ∧ j.duration_ms.isSome = true ∧
    j.file_size_bytes = none) ∧
  ((j.status = JobStatus.pending ∨ j.status = JobStatus.processing) →
    j.audio_path = none ∧ j.error_message = none ∧ j.completed_at = none)

/-- Sample pending record, exactly as the intake creates one
(`app/routers/jobs.py`, `create_job`: a `Job` built from the request text and
voice id with status `pending`, all nullable columns defaulting to null). -/
def jobHello : Job :=
  { id := "j1", text := "hello", voice_id := none, status := JobStatus.pending,
    created_at := 0, completed_at := none, audio_path := none,
    error_message := none, duration_ms := none, file_size_bytes := none }

/-- Sample pending record whose synthesis will be made to fail. -/
def jobFailMe : Job :=
  { jobHello with id := "j2", text := "fail me" }

/-- Sample record already in a terminal state. -/
def jobDone : Job :=
  { id := "j3", text := "hi", voice_id := none, status := JobStatus.completed,
    created_at := 0, completed_at := some 1, audio_path := some "audio/j3.wav",
    error_message := none, duration_ms := some 2, file_size_bytes := some 3 }

/-- State of the worker task handle (`JobProcessor._task`): still running, or
finished (a finished asyncio task stays assigned to `_task`). -/
inductive TaskState where
  | alive
  | done
deriving DecidableEq, Repr

/-- Mutable control state of `JobProcessor` (`__init__`, lines 29-32): the
queue contents, the `_running` flag, and the `_task` handle (`none` before
the first `start()`). -/
structure ProcState where
  queue : List String
  running : Bool
  task : Option TaskState
deriving DecidableEq, Repr

/-- A freshly constructed `JobProcessor()`. -/
def ProcState.init : ProcState := { queue := [], running := false, task := none }

/-- Embeds `JobProcessor.start` (lines 34-37): sets `_running = True` and spawns the
worker task.  It does not touch `_queue`. -/
def start (s : ProcState) : ProcState :=
  { s with running := true, task := some TaskState.alive }

/-- Where the live worker happens to be when `stop()` runs — the scheduling
nondeterminism of the event loop: `blocked` means awaiting `queue.get` (which
entails the queue is empty at that moment); `busy` means inside
`_process_job`, or otherwise past the `get`. -/
inductive WorkerPhase where
  | blocked
  | busy
deriving DecidableEq, Repr

/-- Embeds `JobProcessor.stop` (lines 39-52): clears `_running`; if a task handle
exists it puts the empty-string sentinel and awaits the task (cancelling on timeout).
A worker blocked on `get` receives the sentinel, skips it, re-checks
`_running` and exits, leaving the queue empty; a busy worker finishes its
current job, sees `_running` false and exits without consuming, so the
sentinel (after any still-undequeued ids) stays in the queue; a task that
already finished (stop after stop) never consumes it.  `stop` never resets
`_task` to `None` and never drains the queue. -/
def stop (ph : WorkerPhase) (s : ProcState) : ProcState :=
  match s.task with
  | none => { s with running := false }
  | some TaskState.done =>
      { s with running := false, queue := s.queue ++ [""] }
  | some TaskState.alive =>
      match ph with
      | WorkerPhase.blocked =>
          { queue := [], running := false, task := some TaskState.done }
      | WorkerPhase.busy =>
          { queue := s.queue ++ [""], running := false, task := some TaskState.done }

/-- Tests whether `pat` is a prefix of the character list. -/
def seqStarts : List Char → List Char → Bool
  | [], _ => true
  | _ :: _, [] => false
  | p :: ps, c :: cs => p == c && seqStarts ps cs

/-- Tests whether `pat` occurs contiguously somewhere in the character list
(the Python `in` operator on strings). -/
def seqContains (pat : List Char) : List Char → Bool
  | [] => pat.isEmpty
  | c :: cs => seqStarts pat (c :: cs) || seqContains pat cs

/-- Python `pat in s` for strings. -/
def strContains (pat s : String) : Bool := seqContains pat.toList s.toList

/-- Python `str(e).lower()`: lowercase every character (built through the
character list; extensionally `String.toLower`). -/
def strLower (s : String) : String := String.mk (s.toList.map Char.toLower)

/-- The check for a token, authentication, or 401 substring of the lowercased
message (`tts_service.py`, line 90). -/
def authHit (m : String) : Bool :=
  strContains "token" m || strContains "authentication" m || strContains "401" m

/-- The check for a connection, network, or timeout substring of the lowercased
message (line 95). -/
def netHit (m : String) : Bool :=
  strContains "connection" m || strContains "network" m || strContains "timeout" m

/-- The `TTSService` flags relevant to model loading (`__init__`,
lines 32-38): `_loading`, `_loaded`, and whether `self.model` is set. -/
structure TtsState where
  loading : Bool
  loaded : Bool
  has_model : Bool
deriving DecidableEq, Repr

/-- A freshly constructed `TTSService()`. -/
def TtsState.init : TtsState := { loading := false, loaded := false, has_model := false }

/-- Outcome of the underlying `mlx_audio` `load_model(self.MODEL_REPO_ID)`
call: success, an `OSError` with the given message, or any other exception. -/
inductive LoadOutcome where
  | ok
  | osErr (msg : String)
  | otherErr (msg : String)
deriving DecidableEq, Repr

/-- How `TTSService.load_model` terminates when it does not return normally,
mirroring the Python exception classes it raises:
`modelNotCached` = `FileNotFoundError`, `authenticationRequired` =
`PermissionError`, `networkUnavailable` = `ConnectionError`, `osError` = the
re-raised original `OSError`, `engineError` = any other exception
propagating unchanged. -/
inductive LoadError where
  | modelNotCached (msg : String)
  | authenticationRequired (msg : String)
  | networkUnavailable (msg : String)
  | osError (msg : String)
  | engineError (msg : String)
deriving DecidableEq, Repr

/-- Message of the `FileNotFoundError` (lines 80-82). -/
def notCachedMsg : String :=
  "Model not cached. Use /model/download to download the model first."

/-- Message of the `PermissionError` (lines 91-94). -/
def authRequiredMsg : String :=
  "HuggingFace authentication required. Set HF_TOKEN environment variable or run: huggingface-cli login"

/-- Message of the `ConnectionError` (lines 96-99), built from the original
(non-lowercased) `OSError` text. -/
def networkErrMsg (e : String) : String :=
  "Network error downloading model: " ++ e ++ ". Check your internet connection and try again."

/-- Embeds `TTSService.load_model` (`app/services/tts_service.py`, lines 69-103).
`cached` models `is_model_cached()`; `outcome` the behaviour of the
underlying loader.  The cached-check happens before `_loading` is set; the
`try`/`except OSError`/`finally` classifies `OSError`s by lowercased message
substrings (token/authentication/401 first, then
connection/network/timeout, else re-raise) and always clears `_loading`. -/
def load_model (cached : Bool) (outcome : LoadOutcome) (local_only : Bool)
    (s : TtsState) : Except LoadError Unit × TtsState :=
  if local_only && !cached then
    (Except.error (LoadError.modelNotCached notCachedMsg), s)
  else
    match outcome with
    | LoadOutcome.ok =>
        (Except.ok (), { loading := false, loaded := true, has_model := true })
    | LoadOutcome.osErr msg =>
        let m := strLower msg
        if authHit m then
          (Except.error (LoadError.authenticationRequired authRequiredMsg),
           { s with loading := false })
        else if netHit m then
          (Except.error (LoadError.networkUnavailable (networkErrMsg msg)),
           { s with loading := false })
        else
          (Except.error (LoadError.osError msg), { s with loading := false })
    | LoadOutcome.otherErr msg =>
        (Except.error (LoadError.engineError msg), { s with loading := false })

/-- An available voice (`class Voice`, `tts_service.py` lines 13-19). -/
structure Voice where
  id : String
  display_name : String
  file_path : String
  duration : Option Nat
deriving DecidableEq, Repr

/-- Embeds `TTSService.get_voice` (lines 130-132): `self._voices.get(voice_id)`;
the scanned catalog dict is modelled as an association list. -/
def get_voice (voices : List (String × Voice)) (voice_id : String) : Option Voice :=
  (voices.find? (fun p => p.1 == voice_id)).map (fun p => p.2)

/-- The voice-resolution prologue shared by `generate` (lines 186-190) and
`generate_to_file` (lines 222-226): `voice_path = None; if voice_id: voice =
self.get_voice(voice_id); if voice: voice_path = voice.file_path`.  A Python
`str` is falsy exactly when empty, so `some ""` also falls back to the
default. -/
def resolve_voice_path (voices : List (String × Voice)) (voice_id : Option String) :
    Option String :=
  match voice_id with
  | none => none
  | some vid =>
      if vid = "" then none
      else match get_voice voices vid with
        | some v => some v.file_path
        | none => none

/-- Embeds `TTSService.generate_to_file` (lines 210-236): resolves the voice, then
runs the synchronous generation under the lock on the single-slot executor;
`gen text voice_path` models `_generate_sync` returning the byte size. -/
def generate_to_file (gen : String → Option String → Nat)
    (voices : List (String × Voice)) (text : String) (voice_id : Option String) : Nat :=
  gen text (resolve_voice_path voices voice_id)

/-- Embeds `TTSService.generate` (lines 168-208): same resolution; `gen` models
generation to a temp file plus read-back of `(audio, sample_rate)`. -/
def generate (gen : String → Option String → List Int × Nat)
    (voices : List (String × Voice)) (text : String) (voice_id : Option String) :
    List Int × Nat :=
  gen text (resolve_voice_path voices voice_id)

/-- Sample catalog entry for the witnesses. -/
def aliceVoice : Voice :=
  { id := "alice", display_name := "alice", file_path := "voices/alice.wav",
    duration := none }

/-- Models the guarded best-effort removal: `os.remove(p)` runs only when
`Path(p).exists()`, and an `OSError` is swallowed by the bare `except`.  The
filesystem is the list of existing paths; `rmFails p` says removing `p`
raises `OSError`, leaving the file in place. -/
def tryRemove (rmFails : String → Bool) (fs : List String) (p : String) : List String :=
  if fs.contains p then
    if rmFails p then fs else fs.erase p
  else fs

/-- Embeds `delete_job` (`app/routers/jobs.py`, lines 141-164): 404 (`Except.error`)
when the record is missing; otherwise best-effort removal of the audio
artifact (the `if job.audio_path and ...` guard: Python truthiness skips
`None` and the empty string), then deletion of the record — primary keys are unique, so filtering
the row with that id out models `db.delete(job)`. -/
def delete_job (rmFails : String → Bool) (jid : String)
    (s : List Job) (fs : List String) : Except String (List Job × List String) :=
  match getById s jid with
  | none => Except.error ("Job not found: " ++ jid)
  | some job =>
      let fs2 := match job.audio_path with
        | none => fs
        | some p => if p = "" then fs else tryRemove rmFails fs p
      Except.ok (s.filter (fun r => !(r.id == jid)), fs2)

/-- Embeds `delete_all_jobs` (lines 167-188): collect the non-null audio paths,
remove each best-effort, then delete every record. -/
def delete_all_jobs (rmFails : String → Bool) (s : List Job) (fs : List String) :
    List Job × List String :=
  let audio_paths := s.filterMap (fun r => r.audio_path)
  let fs2 := audio_paths.foldl
    (fun acc p => if p = "" then acc else tryRemove rmFails acc p) fs
  ([], fs2)

theorem blocks_append {a b : List Ev} (ha : Blocks a) (hb : Blocks b) :
    Blocks (a ++ b) := by
  induction ha with
  | nil => simpa using hb
  | cons j tr h ih => exact Blocks.cons j (tr ++ b) ih

theorem process_job_trace (synth : String → Option String → Except String Nat)
    (t d : Nat) (jid : String) (s : List Job) :
    (process_job synth t d jid s).2 = [] ∨
    (process_job synth t d jid s).2 = [Ev.markProcessing jid, Ev.markTerminal jid] := by
  unfold process_job
  rcases h : getById s jid with _ | job
  · exact Or.inl rfl
  · by_cases hp : job.status = JobStatus.pending
    · rcases hs : synth job.text job.voice_id with size | msg <;> simp [hp, hs]
    · simp [hp]

theorem marksOf_append (a b : List Ev) :
    marksOf (a ++ b) = marksOf a ++ marksOf b := by
  simp [marksOf]

theorem openCount_nil : openCount [] = 0 := by simp [openCount]

theorem openCount_mark (j : String) (l : List Ev) :
    openCount (Ev.markProcessing j :: l) = 1 + openCount l := by
  simp [openCount, List.countP_cons]
  omega

theorem openCount_term (j : String) (l : List Ev) :
    openCount (Ev.markTerminal j :: l) = openCount l - 1 := by
  simp [openCount, List.countP_cons]
  omega

theorem blocks_openCount_take {tr : List Ev} (h : Blocks tr) :
    ∀ n, openCount (tr.take n) ≤ 1 ∧ 0 ≤ openCount (tr.take n) := by
  induction h with
  | nil => intro n; simp [openCount_nil]
  | cons j tr h ih =>
    intro n
    match n with
    | 0 => simp [openCount_nil]
    | 1 =>
      simp [List.take, openCount_mark, openCount_nil]
    | (m + 2) =>
      have := ih m
      simp [List.take, openCount_mark, openCount_term]
      omega

theorem process_loop_blocks (synth : String → Option String → Except String Nat)
    (t d : Nat) (q : List String) : ∀ s : List Job,
    Blocks (process_loop synth t d q s).2 := by
  induction q with
  | nil => intro s; exact Blocks.nil
  | cons jid rest ih =>
    intro s
    by_cases hj : jid = ""
    · simpa [process_loop, hj] using ih s
    · have hb : Blocks (process_job synth t d jid s).2 := by
        rcases process_job_trace synth t d jid s with h | h
        · rw [h]; exact Blocks.nil
        · rw [h]; exact Blocks.cons jid [] Blocks.nil
      simpa [process_loop, hj] using
        blocks_append hb (ih (process_job synth t d jid s).1)

theorem process_loop_marks_sublist (synth : String → Option String → Except String Nat)
    (t d : Nat) (q : List String) : ∀ s : List Job,
    List.Sublist (marksOf (process_loop synth t d q s).2) q := by
  induction q with
  | nil => intro s; simp [process_loop, marksOf]
  | cons jid rest ih =>
    intro s
    by_cases hj : jid = ""
    · have := ih s
      simpa [process_loop, hj] using this.trans (List.sublist_cons_self jid rest)
    · have hrest := ih (process_job synth t d jid s).1
      rcases process_job_trace synth t d jid s with h | h
      · simp only [process_loop, if_neg hj, marksOf_append, h]
        simpa [marksOf] using
          hrest.trans (List.sublist_cons_self jid rest)
      · simp only [process_loop, if_neg hj, marksOf_append, h]
        simpa [marksOf] using List.Sublist.cons₂ jid hrest

/-- C1: In any single run of the worker loop, over any queue contents, any
store, and any behaviour of the synthesis engine: (a) the ids marked
`processing` form a subsequence of the queue in FIFO order; (b) the event
trace is a concatenation of complete per-job blocks — each job's terminal
write happens before the next job's `processing`-mark (the loop awaits
`_process_job` before the next dequeue); hence (c) after any prefix of the
trace, at most one job is in `processing` status. -/
theorem c1_fifo_at_most_one_processing
    (synth : String → Option String → Except String Nat)
    (t d : Nat) (q : List String) (s : List Job) :
    List.Sublist (marksOf (process_loop synth t d q s).2) q ∧
    Blocks (process_loop synth t d q s).2 ∧
    ∀ n, openCount ((process_loop synth t d q s).2.take n) ≤ 1 := by
  refine ⟨process_loop_marks_sublist synth t d q s,
          process_loop_blocks synth t d q s, ?_⟩
  intro n
  exact (blocks_openCount_take (process_loop_blocks synth t d q s) n).1

theorem getById_some_id {s : List Job} {jid : String} {job : Job}
    (h : getById s jid = some job) : job.id = jid := by
  have := List.find?_some h
  simpa using this

theorem updateById_cons (x : Job) (xs : List Job) (jid : String) (r : Job) :
    updateById (x :: xs) jid r = (if x.id == jid then r else x) :: updateById xs jid r := rfl

theorem getById_updateById (s : List Job) (jid : String) (r : Job)
    (hr : r.id = jid) (h : (getById s jid).isSome = true) :
    getById (updateById s jid r) jid = some r := by
  induction s with
  | nil => simp [getById] at h
  | cons x xs ih =>
    by_cases hx : x.id = jid
    · have hxb : (x.id == jid) = true := by simp [hx]
      have hrb : (r.id == jid) = true := by simp [hr]
      rw [updateById_cons, if_pos hxb]
      simp only [getById, List.find?_cons, hrb]
    · have hxb : (x.id == jid) = false := by simp [hx]
      have h2 : (getById xs jid).isSome = true := by
        simp only [getById, List.find?_cons, hxb] at h
        exact h
      rw [updateById_cons, if_neg (by simp [hx])]
      simp only [getById, List.find?_cons, hxb] at ih ⊢
      exact ih h2

/-- C2: For a record as the intake creates it (`pending`, all terminal
fields null), `_process_job` preserves the Job Record invariant at both commit
points: the intermediate `processing`-marked record has no terminal field set,
and the final record satisfies terminal exclusivity — `audio_path`, metrics
and `completed_at` exactly on `completed`; `error_message`, `duration_ms` and
`completed_at` but no `audio_path`/`file_size_bytes` on `failed`. -/
theorem c2_terminal_exclusivity
    (synth : String → Option String → Except String Nat)
    (t d : Nat) (jid : String) (s : List Job) (job : Job)
    (hfind : getById s jid = some job)
    (hp : job.status = JobStatus.pending)
    (hca : job.completed_at = none) (haud : job.audio_path = none)
    (herr : job.error_message = none) (hdur : job.duration_ms = none)
    (hsz : job.file_size_bytes = none) :
    (getById (updateById s jid { job with status := JobStatus.processing }) jid
        = some { job with status := JobStatus.processing } ∧
      terminalInv { job with status := JobStatus.processing }) ∧
    ∃ job2, getById (process_job synth t d jid s).1 jid = some job2 ∧
      terminalInv job2 ∧
      (job2.status = JobStatus.completed ∨ job2.status = JobStatus.failed) := by
  have hid : job.id = jid := getById_some_id hfind
  have hmid : getById (updateById s jid { job with status := JobStatus.processing }) jid
      = some { job with status := JobStatus.processing } :=
    getById_updateById s jid _ hid (by simp [hfind])
  refine ⟨⟨hmid, fun h => JobStatus.noConfusion h, fun h => JobStatus.noConfusion h,
           fun _ => ⟨haud, herr, hca⟩⟩, ?_⟩
  have hnp : ¬ (job.status ≠ JobStatus.pending) := by simp [hp]
  rcases hs : synth job.text job.voice_id with msg | size
  · refine ⟨{ job with
              status := JobStatus.failed,
              completed_at := some t,
              error_message := some msg,
              duration_ms := some d }, ?_, ?_, Or.inr rfl⟩
    · show getById (process_job synth t d jid s).1 jid = _
      unfold process_job
      rw [hfind]
      simp only [if_neg hnp, hs]
      exact getById_updateById _ jid _ hid (by simp [hmid])
    · exact ⟨fun h => JobStatus.noConfusion h,
        fun _ => ⟨rfl, haud, rfl, rfl, hsz⟩,
        fun h => by rcases h with h | h <;> exact JobStatus.noConfusion h⟩
  · refine ⟨{ job with
              status := JobStatus.completed,
              completed_at := some t,
              audio_path := some (audioPathFor jid),
              duration_ms := some d,
              file_size_bytes := some size }, ?_, ?_, Or.inl rfl⟩
    · show getById (process_job synth t d jid s).1 jid = _
      unfold process_job
      rw [hfind]
      simp only [if_neg hnp, hs]
      exact getById_updateById _ jid _ hid (by simp [hmid])
    · exact ⟨fun _ => ⟨rfl, herr, rfl, rfl, rfl⟩,
        fun h => JobStatus.noConfusion h,
        fun h => by rcases h with h | h <;> exact JobStatus.noConfusion h⟩

/-- C2 witness (successful synthesis of the sample pending record). -/
theorem c2_terminal_exclusivity_witness :
    (getById (updateById [jobHello] "j1" { jobHello with status := JobStatus.processing }) "j1"
        = some { jobHello with status := JobStatus.processing } ∧
      terminalInv { jobHello with status := JobStatus.processing }) ∧
    ∃ job2, getById (process_job (fun _ _ => Except.ok 44100) 5 7 "j1" [jobHello]).1 "j1"
        = some job2 ∧
      terminalInv job2 ∧
      (job2.status = JobStatus.completed ∨ job2.status = JobStatus.failed) :=
  c2_terminal_exclusivity (fun _ _ => Except.ok 44100) 5 7 "j1" [jobHello] jobHello
    rfl rfl rfl rfl rfl rfl rfl

/-- C3: When the synthesis call raises (returns an error message), the
processor writes a terminal `failed` record with `error_message` equal to the
exception's text and `completed_at`/`duration_ms` set, and the worker loop
continues: the trace for `jid :: rest` is the failing job's two commits
followed by the trace of the remaining queue on the updated store — the
exception never propagates out of the loop. -/
theorem c3_synthesis_failure_caught
    (synth : String → Option String → Except String Nat)
    (t d : Nat) (jid : String) (s : List Job) (job : Job) (msg : String)
    (hfind : getById s jid = some job)
    (hp : job.status = JobStatus.pending)
    (hs : synth job.text job.voice_id = Except.error msg) :
    getById (process_job synth t d jid s).1 jid
      = some { job with
               status := JobStatus.failed,
               completed_at := some t,
               error_message := some msg,
               duration_ms := some d } ∧
    (process_job synth t d jid s).2 = [Ev.markProcessing jid, Ev.markTerminal jid] ∧
    (jid ≠ "" → ∀ rest : List String,
      (process_loop synth t d (jid :: rest) s).2
        = Ev.markProcessing jid :: Ev.markTerminal jid ::
            (process_loop synth t d rest (process_job synth t d jid s).1).2) := by
  have hid : job.id = jid := getById_some_id hfind
  have hmid : getById (updateById s jid { job with status := JobStatus.processing }) jid
      = some { job with status := JobStatus.processing } :=
    getById_updateById s jid _ hid (by simp [hfind])
  have hnp : ¬ (job.status ≠ JobStatus.pending) := by simp [hp]
  have hrec : getById (process_job synth t d jid s).1 jid
      = some { job with
               status := JobStatus.failed,
               completed_at := some t,
               error_message := some msg,
               duration_ms := some d } := by
    unfold process_job
    rw [hfind]
    simp only [if_neg hnp, hs]
    exact getById_updateById _ jid _ hid (by simp [hmid])
  have htr : (process_job synth t d jid s).2
      = [Ev.markProcessing jid, Ev.markTerminal jid] := by
    unfold process_job
    rw [hfind]
    simp only [if_neg hnp, hs]
  refine ⟨hrec, htr, fun hj rest => ?_⟩
  simp [process_loop, hj, htr]

/-- C3 witness (engine raises a simulated network failure for
`"fail me"`). -/
theorem c3_synthesis_failure_caught_witness :
    getById (process_job (fun _ _ => Except.error "Network down") 5 7 "j2" [jobFailMe]).1 "j2"
      = some { jobFailMe with
               status := JobStatus.failed,
               completed_at := some 5,
               error_message := some "Network down",
               duration_ms := some 7 } ∧
    (process_job (fun _ _ => Except.error "Network down") 5 7 "j2" [jobFailMe]).2
      = [Ev.markProcessing "j2", Ev.markTerminal "j2"] ∧
    ("j2" ≠ "" → ∀ rest : List String,
      (process_loop (fun _ _ => Except.error "Network down") 5 7 ("j2" :: rest) [jobFailMe]).2
        = Ev.markProcessing "j2" :: Ev.markTerminal "j2" ::
            (process_loop (fun _ _ => Except.error "Network down") 5 7 rest
              (process_job (fun _ _ => Except.error "Network down") 5 7 "j2" [jobFailMe]).1).2) :=
  c3_synthesis_failure_caught (fun _ _ => Except.error "Network down") 5 7 "j2"
    [jobFailMe] jobFailMe "Network down" rfl rfl rfl

/-- C5: If the store has no record for the dequeued id, or the record is
not `pending`, `_process_job` drops the job without mutating the store and
without emitting any event, and the loop processes the remaining queue
exactly as if the dropped id had not been there. -/
theorem c5_missing_or_not_pending_dropped
    (synth : String → Option String → Except String Nat)
    (t d : Nat) (jid : String) (s : List Job)
    (h : getById s jid = none ∨
         ∃ job, getById s jid = some job ∧ job.status ≠ JobStatus.pending) :
    process_job synth t d jid s = (s, []) ∧
    (jid ≠ "" → ∀ rest : List String,
      process_loop synth t d (jid :: rest) s = process_loop synth t d rest s) := by
  have hdrop : process_job synth t d jid s = (s, []) := by
    unfold process_job
    rcases h with h | ⟨job, hjob, hnp⟩
    · rw [h]
    · rw [hjob]; simp [hnp]
  exact ⟨hdrop, fun hj rest => by simp [process_loop, hj, hdrop]⟩

/-- C5 witness (a dequeued id whose record was deleted concurrently). -/
theorem c5_missing_or_not_pending_dropped_witness :
    process_job (fun _ _ => Except.ok 1) 5 7 "gone" [jobDone] = ([jobDone], []) ∧
    ("gone" ≠ "" → ∀ rest : List String,
      process_loop (fun _ _ => Except.ok 1) 5 7 ("gone" :: rest) [jobDone]
        = process_loop (fun _ _ => Except.ok 1) 5 7 rest [jobDone]) :=
  c5_missing_or_not_pending_dropped (fun _ _ => Except.ok 1) 5 7 "gone" [jobDone]
    (Or.inl rfl)

/-- C9: The empty-string sentinel that `stop()` enqueues is never processed
as a job: wherever an empty string sits in the delivered queue, the loop's outcome —
final store and full event trace — is exactly that of the queue with the
sentinel removed; the store is never touched for a falsy id. -/
theorem c9_sentinel_never_processed
    (synth : String → Option String → Except String Nat)
    (t d : Nat) (q1 q2 : List String) : ∀ s : List Job,
    process_loop synth t d (q1 ++ "" :: q2) s = process_loop synth t d (q1 ++ q2) s := by
  induction q1 with
  | nil => intro s; simp [process_loop]
  | cons a q1 ih =>
    intro s
    by_cases ha : a = ""
    · simpa [process_loop, ha] using ih s
    · simp [process_loop, ha, ih]

theorem stop_running (ph : WorkerPhase) (s : ProcState) :
    (stop ph s).running = false := by
  rcases h : s.task with _ | ts
  · simp [stop, h]
  · cases ts <;> cases ph <;> simp [stop, h]

theorem stop_queue_sentinels (ph : WorkerPhase) (s : ProcState)
    (h : s.queue.all (fun x => x == "") = true) :
    (stop ph s).queue.all (fun x => x == "") = true := by
  rcases ht : s.task with _ | ts
  · simpa [stop, ht] using h
  · cases ts <;> cases ph <;> simp [stop, ht, List.all_append, h]

/-- C4 counterexample: A concrete schedule the real system exhibits:
`start()`; `stop()` with the worker blocked on `get` (the worker consumes the
sentinel and exits, queue left empty); `stop()` again on the already-stopped
processor (stop puts a fresh empty-string sentinel that no worker consumes, since
`_task` still holds the finished task); `start()`.  After this
stop()/start() sequence the queue still holds the sentinel: `start()` resets
neither the queue nor anything besides `_running`/`_task`, so the claimed
"empty queue" after stop()/start() is false. -/
theorem c4_counterexample :
    (start (stop WorkerPhase.blocked (stop WorkerPhase.blocked (start ProcState.init)))).queue
      = [""] ∧
    ¬ ((start (stop WorkerPhase.blocked (stop WorkerPhase.blocked (start ProcState.init)))).queue
      = []) :=
  ⟨rfl, by decide⟩

/-- C4 amended: `start()` after `stop()` sets the running flag and
spawns a fresh worker, and `stop()` when already stopped is harmless; but
`start()` does not reset the queue.  Whenever the queue held nothing but
sentinels (in particular, was empty), everything left behind by any
stop()/stop()/start() sequence is empty-string sentinels, which the worker skips
without touching the Job Store — so the processor is in a valid,
restartable state, with a possibly non-empty (sentinel-only) queue. -/
theorem c4_restart_amended (ph ph2 : WorkerPhase) (s : ProcState)
    (h : s.queue.all (fun x => x == "") = true) :
    (start (stop ph s)).running = true ∧
    (start (stop ph s)).task = some TaskState.alive ∧
    (start (stop ph s)).queue.all (fun x => x == "") = true ∧
    (stop ph2 (stop ph s)).running = false ∧
    (stop ph2 (stop ph s)).queue.all (fun x => x == "") = true := by
  refine ⟨rfl, rfl, ?_, stop_running ph2 _, ?_⟩
  · simpa [start] using stop_queue_sentinels ph s h
  · exact stop_queue_sentinels ph2 _ (stop_queue_sentinels ph s h)

/-- C4 amended witness. -/
theorem c4_restart_amended_witness :
    (start (stop WorkerPhase.blocked ProcState.init)).running = true ∧
    (start (stop WorkerPhase.blocked ProcState.init)).task = some TaskState.alive ∧
    (start (stop WorkerPhase.blocked ProcState.init)).queue.all (fun x => x == "") = true ∧
    (stop WorkerPhase.busy (stop WorkerPhase.blocked ProcState.init)).running = false ∧
    (stop WorkerPhase.busy (stop WorkerPhase.blocked ProcState.init)).queue.all
      (fun x => x == "") = true :=
  c4_restart_amended WorkerPhase.blocked WorkerPhase.busy ProcState.init rfl

/-- C6: The model-loading failure taxonomy: `local_only` with no cached
model raises the `FileNotFoundError` (ModelNotCached); an `OSError` whose
lowercased message mentions token/authentication/401 is re-raised as
`PermissionError` (AuthenticationRequired); one mentioning
connection/network/timeout (and none of the token markers, which are checked
first) as `ConnectionError` (NetworkUnavailable); any other `OSError` is
re-raised unchanged, and any non-`OSError` failure propagates as a generic
engine error. -/
theorem c6_load_failure_taxonomy (s : TtsState) (outcome : LoadOutcome)
    (local_only : Bool) (msgA msgN msgG msgE : String)
    (hA : authHit (strLower msgA) = true)
    (hN : netHit (strLower msgN) = true) (hN2 : authHit (strLower msgN) = false)
    (hG : authHit (strLower msgG) = false) (hG2 : netHit (strLower msgG) = false) :
    (load_model false outcome true s).1
      = Except.error (LoadError.modelNotCached notCachedMsg) ∧
    (load_model true (LoadOutcome.osErr msgA) local_only s).1
      = Except.error (LoadError.authenticationRequired authRequiredMsg) ∧
    (load_model true (LoadOutcome.osErr msgN) local_only s).1
      = Except.error (LoadError.networkUnavailable (networkErrMsg msgN)) ∧
    (load_model true (LoadOutcome.osErr msgG) local_only s).1
      = Except.error (LoadError.osError msgG) ∧
    (load_model true (LoadOutcome.otherErr msgE) local_only s).1
      = Except.error (LoadError.engineError msgE) := by
  refine ⟨?_, ?_, ?_, ?_, ?_⟩ <;> simp [load_model, hA, hN, hN2, hG, hG2]

/-- C6 witness. -/
theorem c6_load_failure_taxonomy_witness :
    (load_model false LoadOutcome.ok true TtsState.init).1
      = Except.error (LoadError.modelNotCached notCachedMsg) ∧
    (load_model true (LoadOutcome.osErr "401 Client Error") false TtsState.init).1
      = Except.error (LoadError.authenticationRequired authRequiredMsg) ∧
    (load_model true (LoadOutcome.osErr "Connection timed out") false TtsState.init).1
      = Except.error (LoadError.networkUnavailable (networkErrMsg "Connection timed out")) ∧
    (load_model true (LoadOutcome.osErr "No space left on device") false TtsState.init).1
      = Except.error (LoadError.osError "No space left on device") ∧
    (load_model true (LoadOutcome.otherErr "boom") false TtsState.init).1
      = Except.error (LoadError.engineError "boom") :=
  c6_load_failure_taxonomy TtsState.init LoadOutcome.ok false
    "401 Client Error" "Connection timed out" "No space left on device" "boom"
    (by decide) (by decide) (by decide) (by decide) (by decide)

/-- C10: However `load_model` terminates — normal return, the
cached-check `FileNotFoundError` (raised before `_loading` is set), or any
classified/unclassified load failure — the `_loading` flag is false
afterwards: the `finally` block clears it on every path that set it. -/
theorem c10_loading_flag_reset (cached : Bool) (outcome : LoadOutcome)
    (local_only : Bool) (s : TtsState) (h : s.loading = false) :
    (load_model cached outcome local_only s).2.loading = false := by
  unfold load_model
  split
  · exact h
  · cases outcome with
    | ok => rfl
    | osErr msg =>
        by_cases h1 : authHit (strLower msg) = true <;>
          by_cases h2 : netHit (strLower msg) = true <;>
            simp [h1, h2]
    | otherErr msg => rfl

/-- C10 witness. -/
theorem c10_loading_flag_reset_witness :
    (load_model false (LoadOutcome.osErr "boom") false TtsState.init).2.loading = false :=
  c10_loading_flag_reset false (LoadOutcome.osErr "boom") false TtsState.init rfl

/-- C7: If `voice_id` is absent (`None`, or the Python-falsy empty string) or names no
voice in the scanned catalog, both `generate_to_file` and `generate` resolve
the voice reference to `None` and proceed with the built-in default voice —
generation is invoked normally and no error arises from the lookup. -/
theorem c7_unknown_voice_default
    (gen : String → Option String → Nat)
    (gen2 : String → Option String → List Int × Nat)
    (voices : List (String × Voice)) (text : String) (voice_id : Option String)
    (h : voice_id = none ∨ ∀ vid, voice_id = some vid → get_voice voices vid = none) :
    resolve_voice_path voices voice_id = none ∧
    generate_to_file gen voices text voice_id = gen text none ∧
    generate gen2 voices text voice_id = gen2 text none := by
  have hres : resolve_voice_path voices voice_id = none := by
    rcases h with h | h
    · simp [resolve_voice_path, h]
    · cases voice_id with
      | none => rfl
      | some vid =>
          by_cases h0 : vid = ""
          · simp [resolve_voice_path, h0]
          · simp [resolve_voice_path, h0, h vid rfl]
  exact ⟨hres, by simp [generate_to_file, hres], by simp [generate, hres]⟩

/-- C7 witness (voice id not present in the catalog). -/
theorem c7_unknown_voice_default_witness :
    resolve_voice_path [("alice", aliceVoice)] (some "bob") = none ∧
    generate_to_file (fun _ _ => 99) [("alice", aliceVoice)] "hi" (some "bob") = 99 ∧
    generate (fun _ _ => ([1], 24000)) [("alice", aliceVoice)] "hi" (some "bob")
      = ([1], 24000) :=
  c7_unknown_voice_default (fun _ _ => 99) (fun _ _ => ([1], 24000))
    [("alice", aliceVoice)] "hi" (some "bob")
    (Or.inr (fun vid hv => by
      injection hv with h2
      subst h2
      rfl))

theorem updateById_ids (s : List Job) (jid : String) (r : Job) (hr : r.id = jid) :
    (updateById s jid r).map (fun x => x.id) = s.map (fun x => x.id) := by
  unfold updateById
  rw [List.map_map]
  apply List.map_congr_left
  intro a _
  by_cases ha : a.id = jid
  · simp [Function.comp, ha, hr]
  · simp [Function.comp, ha]

theorem process_job_ids (synth : String → Option String → Except String Nat)
    (t d : Nat) (jid : String) (s : List Job) :
    (process_job synth t d jid s).1.map (fun r => r.id) = s.map (fun r => r.id) := by
  unfold process_job
  rcases h : getById s jid with _ | job
  · rfl
  · have hid : job.id = jid := getById_some_id h
    by_cases hp : job.status = JobStatus.pending
    · have hnp : ¬ (job.status ≠ JobStatus.pending) := by simp [hp]
      rcases hs : synth job.text job.voice_id with msg | size <;>
        simp only [if_neg hnp, hs, updateById_ids, hid]
    · simp only [if_pos (show job.status ≠ JobStatus.pending from hp)]

theorem process_loop_ids (synth : String → Option String → Except String Nat)
    (t d : Nat) (q : List String) : ∀ s : List Job,
    (process_loop synth t d q s).1.map (fun r => r.id) = s.map (fun r => r.id) := by
  induction q with
  | nil => intro s; rfl
  | cons jid rest ih =>
      intro s
      by_cases hj : jid = ""
      · simpa [process_loop, hj] using ih s
      · simp only [process_loop, if_neg hj]
        rw [ih, process_job_ids]

theorem getById_filter_ne (s : List Job) (jid : String) :
    getById (s.filter (fun r => !(r.id == jid))) jid = none := by
  unfold getById
  rw [List.find?_eq_none]
  intro x hx
  have h2 := (List.mem_filter.mp hx).2
  simp at h2 ⊢
  exact h2

/-- C8: Job Records are removed only by the explicit delete operations:
the processor preserves the set of record ids (it only updates fields), and
both delete operations remove the record(s) even when removing the audio
artifact raises `OSError` (the failure is swallowed): `delete_job` succeeds
with the record gone, leaving the filesystem untouched when removal failed;
`delete_all_jobs` always leaves the store empty. -/
theorem c8_delete_removes_records_best_effort
    (synth : String → Option String → Except String Nat) (t d : Nat)
    (q : List String) (s : List Job) (rmFails : String → Bool)
    (jid : String) (fs : List String) (job : Job)
    (hfind : getById s jid = some job) :
    (process_loop synth t d q s).1.map (fun r => r.id) = s.map (fun r => r.id) ∧
    (∃ fs2, delete_job rmFails jid s fs
        = Except.ok (s.filter (fun r => !(r.id == jid)), fs2) ∧
      getById (s.filter (fun r => !(r.id == jid))) jid = none ∧
      (∀ p, job.audio_path = some p → rmFails p = true → fs2 = fs)) ∧
    (delete_all_jobs rmFails s fs).1 = [] := by
  refine ⟨process_loop_ids synth t d q s, ?_, rfl⟩
  rcases haud : job.audio_path with _ | p
  · refine ⟨fs, by simp [delete_job, hfind, haud], getById_filter_ne s jid, ?_⟩
    intro p hp
    exact absurd hp (by simp)
  · by_cases h0 : p = ""
    · refine ⟨fs, by simp [delete_job, hfind, haud, h0], getById_filter_ne s jid, ?_⟩
      intro p2 hp2 _
      rfl
    · refine ⟨tryRemove rmFails fs p, by simp [delete_job, hfind, haud, h0],
        getById_filter_ne s jid, ?_⟩
      intro p2 hp2 hfail
      injection hp2 with h2
      subst h2
      simp [tryRemove, hfail]

/-- C8 witness (artifact removal always fails; the record is still
deleted and the store emptied). -/
theorem c8_delete_removes_records_best_effort_witness :
    (process_loop (fun _ _ => Except.ok 1) 5 7 ["j3"] [jobDone]).1.map (fun r => r.id)
      = [jobDone].map (fun r => r.id) ∧
    (∃ fs2, delete_job (fun _ => true) "j3" [jobDone] ["audio/j3.wav"]
        = Except.ok ([jobDone].filter (fun r => !(r.id == "j3")), fs2) ∧
      getById ([jobDone].filter (fun r => !(r.id == "j3"))) "j3" = none ∧
      (∀ p, jobDone.audio_path = some p → (fun _ => true) p = true →
        fs2 = ["audio/j3.wav"])) ∧
    (delete_all_jobs (fun _ => true) [jobDone] ["audio/j3.wav"]).1 = [] :=
  c8_delete_removes_records_best_effort (fun _ _ => Except.ok 1) 5 7 ["j3"] [jobDone]
    (fun _ => true) "j3" ["audio/j3.wav"] jobDone rfl

end App
